import Mathlib

/-!
Verification of the rule-based legal-document analysis core of the
LegalLens repository.

Text is modelled as `List Char` (`Str`).  JavaScript string operations are
embedded as follows:
  * `s.toLowerCase()`  →  `toLowerStr` (ASCII case mapping; all inputs are
    ASCII, where JS and ASCII lowercasing agree);
  * `s.trim()`         →  `trimStr`;
  * `s.includes(p)`    →  `containsStr`;
  * `s.split(/[.!?]+/)` →  `splitPunct` (splits on maximal runs of
    sentence terminators, as the `+` quantifier does);
  * `s.split(/\s+/)`   →  `splitWs`;
  * case-insensitive regexes of the shape `/a.*b.*c/i` → `regexSeq`
    (the literal pieces must occur in order, with the gaps matched by `.*`
    free of line terminators, exactly as JS `.` behaves);
  * `Array.prototype.sort(cmp)` (stable since ES2019) → Mathlib's
    `List.insertionSort` over the linear order "comparator, ties broken by
    original index", which is extensionally the unique stable sort;
  * JS number arithmetic in the risk scorer → exact `Int`/`ℚ` arithmetic
    (all intermediate values are small integers and one final division;
    `Math.round` on a non-negative value is `round : ℚ → ℤ`, i.e. ⌊x+1/2⌋).
-/

/-- Strings as lists of characters. -/
abbrev Str := List Char

/-- Turn a Lean string literal into a `Str`. -/
def str (s : String) : Str := s.data

/-- ASCII lower-casing of one character (JS `toLowerCase` on ASCII input). -/
def lowerChar (c : Char) : Char :=
  if 65 ≤ c.toNat ∧ c.toNat ≤ 90 then Char.ofNat (c.toNat + 32) else c

/-- JS `s.toLowerCase()` on ASCII text. -/
def toLowerStr (s : Str) : Str := s.map lowerChar

/-- JS `s.trim()`: drop leading and trailing whitespace. -/
def trimStr (s : Str) : Str :=
  ((s.dropWhile Char.isWhitespace).reverse.dropWhile Char.isWhitespace).reverse

/-- A sentence-terminator character of the split regex `[.!?]+`. -/
def isTermChar (c : Char) : Bool := c = '.' || c = '!' || c = '?'

/-- JS `s.split(/[.!?]+/)`: split at maximal runs of terminators, the
terminators are discarded and a run contributes a single boundary. -/
def splitPunct : Str → List Str
  | [] => [[]]
  | c :: rest =>
    let r := splitPunct rest
    if isTermChar c then
      if (match rest with | c2 :: _ => isTermChar c2 | [] => false) then r
      else [] :: r
    else
      match r with
      | h :: t => (c :: h) :: t
      | [] => [[c]]

/-- JS `s.includes(p)`: substring containment. -/
def containsStr : Str → Str → Bool
  | [], pat => pat.isEmpty
  | c :: t, pat => pat.isPrefixOf (c :: t) || containsStr t pat

/-- A character matched by the JS regex `.` (anything but a line
terminator; the source texts only ever contain `\n` / `\r`). -/
def isDotChar (c : Char) : Bool := !(c = '\n' || c = '\r')

/-- All remainders of `r` that follow an occurrence of `q` whose start is
reachable from the beginning of `r` through `.`-matchable characters
(used for the `.*` gaps of the risk regexes). -/
def occurrencesAfterGap (q : Str) : Str → List Str
  | [] => if q.isEmpty then [[]] else []
  | c :: t =>
    (if q.isPrefixOf (c :: t) then [(c :: t).drop q.length] else []) ++
      (if isDotChar c then occurrencesAfterGap q t else [])

/-- All remainders of `r` that follow an occurrence of `q` anywhere
(used for the first literal piece of a regex, which may start at any
position). -/
def occurrencesAnywhere (q : Str) : Str → List Str
  | [] => if q.isEmpty then [[]] else []
  | c :: t =>
    (if q.isPrefixOf (c :: t) then [(c :: t).drop q.length] else []) ++
      occurrencesAnywhere q t

/-- Match the remaining literal pieces of an `/a.*b.*c/` regex, each gap
being constrained to `.`-matchable characters. -/
def matchRest : List Str → Str → Bool
  | [], _ => true
  | q :: qs, r => (occurrencesAfterGap q r).any (matchRest qs)

/-- JS `/p₁.*p₂.*…*pₖ/i.test s` for literal pieces `parts` (already
lower-case) against the lower-cased string `s`. -/
def regexSeq (parts : List Str) (s : Str) : Bool :=
  match parts with
  | [] => true
  | q :: qs => (occurrencesAnywhere q s).any (matchRest qs)

/-- JS `s.split(/\s+/)` (leading whitespace yields one empty first
element, as in JS; empty tokens are irrelevant to all callers, which
filter on token length). -/
def splitWs : Str → List Str
  | [] => [[]]
  | c :: rest =>
    let r := splitWs rest
    if c.isWhitespace then
      if (match rest with | c2 :: _ => c2.isWhitespace | [] => false) then r
      else [] :: r
    else
      match r with
      | h :: t => (c :: h) :: t
      | [] => [[c]]

namespace Flow

/-- `riskLevel` of a flow `ClauseNode` (`'high' | 'medium' | 'low' |
'positive'` in the source). -/
inductive Risk where
  | high | medium | low | positive
deriving DecidableEq, Inhabited

/-- The structural marker phrases of `isClauseStart`. -/
def clauseStarters : List Str :=
  [str "section", str "article", str "clause", str "paragraph",
   str "whereas", str "therefore", str "furthermore", str "in addition",
   str "notwithstanding", str "subject to", str "provided that",
   str "it is agreed", str "the parties agree", str "each party",
   str "either party", str "upon termination", str "in the event",
   str "if any", str "this agreement"]

/-- `isClauseStart` of the source: the lower-cased sentence starts with
one of the marker phrases. -/
def isClauseStart (sentence : Str) : Bool :=
  clauseStarters.any (fun starter => starter.isPrefixOf (toLowerStr sentence))

/-- The sentence list feeding the clause extractor:
`text.split(/[.!?]+/).filter(s => s.trim().length > 20)`. -/
def sentencesOf (text : Str) : List Str :=
  (splitPunct text).filter (fun s => 20 < (trimStr s).length)

/-- One step of the clause-accumulation loop of `extractClauses`: state is
(finished blocks, current buffer). -/
def accumStep (st : List Str × Str) (sentence : Str) : List Str × Str :=
  let trimmed := trimStr sentence
  let st1 :=
    if isClauseStart trimmed ∧ 0 < st.2.length then
      (st.1 ++ [trimStr st.2], trimmed)
    else
      (st.1, st.2 ++ (if st.2.isEmpty then [] else str ". ") ++ trimmed)
  if 300 < st1.2.length then (st1.1 ++ [trimStr st1.2], []) else st1

/-- The clause blocks accumulated by `extractClauses` before the final
length filter (the trailing buffer is flushed when non-empty after
trimming). -/
def clauseBlocks (text : Str) : List Str :=
  let st := (sentencesOf text).foldl accumStep ([], [])
  if (trimStr st.2).isEmpty then st.1 else st.1 ++ [trimStr st.2]

/-- `extractClauses` of the source: accumulated blocks with the final
filter `clause.length > 30`. -/
def extractClauses (text : Str) : List Str :=
  (clauseBlocks text).filter (fun clause => 30 < clause.length)

/-- Result record of `analyzeClause`. -/
structure ClauseAnalysis where
  type : Str
  riskLevel : Risk
  category : Str
deriving DecidableEq

/-- The high-risk override list of `analyzeClause`. -/
def highRiskTerms : List Str :=
  [str "unlimited liability", str "personal guarantee",
   str "waive all rights", str "no recourse", str "as is",
   str "without warranty", str "sole discretion",
   str "immediate termination", str "liquidated damages", str "penalty"]

/-- `analyzeClause` of the source: the if/else-if chain assigning type,
category and default risk, followed by the high-risk override. -/
def analyzeClause (clause : Str) : ClauseAnalysis :=
  let lowerClause := toLowerStr clause
  let base : ClauseAnalysis :=
    if containsStr lowerClause (str "payment") || containsStr lowerClause (str "fee") ||
        containsStr lowerClause (str "cost") || containsStr lowerClause (str "compensation") then
      ⟨str "financial", Risk.medium, str "Financial Terms"⟩
    else if containsStr lowerClause (str "terminat") || containsStr lowerClause (str "end") ||
        containsStr lowerClause (str "cancel") || containsStr lowerClause (str "expire") then
      ⟨str "termination", Risk.medium, str "Termination"⟩
    else if containsStr lowerClause (str "liability") || containsStr lowerClause (str "damages") ||
        containsStr lowerClause (str "indemnif") || containsStr lowerClause (str "waive") ||
        containsStr lowerClause (str "disclaim") || containsStr lowerClause (str "limit") then
      ⟨str "liability", Risk.high, str "Liability & Risk"⟩
    else if containsStr lowerClause (str "intellectual property") || containsStr lowerClause (str "copyright") ||
        containsStr lowerClause (str "trademark") || containsStr lowerClause (str "patent") ||
        containsStr lowerClause (str "proprietary") then
      ⟨str "intellectual_property", Risk.medium, str "Intellectual Property"⟩
    else if containsStr lowerClause (str "confidential") || containsStr lowerClause (str "non-disclosure") ||
        containsStr lowerClause (str "proprietary information") || containsStr lowerClause (str "trade secret") then
      ⟨str "confidentiality", Risk.medium, str "Confidentiality"⟩
    else if containsStr lowerClause (str "shall") || containsStr lowerClause (str "must") ||
        containsStr lowerClause (str "required") || containsStr lowerClause (str "obligation") then
      ⟨str "obligation", Risk.medium, str "Obligations"⟩
    else if containsStr lowerClause (str "warrant") || containsStr lowerClause (str "represent") ||
        containsStr lowerClause (str "guarantee") || containsStr lowerClause (str "assure") then
      ⟨str "warranty", Risk.low, str "Warranties"⟩
    else if containsStr lowerClause (str "dispute") || containsStr lowerClause (str "arbitration") ||
        containsStr lowerClause (str "mediation") || containsStr lowerClause (str "litigation") then
      ⟨str "dispute_resolution", Risk.medium, str "Dispute Resolution"⟩
    else if containsStr lowerClause (str "governing law") || containsStr lowerClause (str "jurisdiction") ||
        containsStr lowerClause (str "venue") || containsStr lowerClause (str "court") then
      ⟨str "governing_law", Risk.low, str "Legal Framework"⟩
    else if containsStr lowerClause (str "benefit") || containsStr lowerClause (str "advantage") ||
        containsStr lowerClause (str "protection") || containsStr lowerClause (str "right") then
      ⟨str "benefit", Risk.positive, str "Benefits & Rights"⟩
    else
      ⟨str "general", Risk.low, str "General"⟩
  if highRiskTerms.any (fun term => containsStr lowerClause term) then
    { base with riskLevel := Risk.high }
  else
    base

/-- One category rule of the flow classifier as the spec states it: a
list of trigger substrings together with the resulting type, default
risk and category. -/
structure CategoryRule where
  triggers : List Str
  type : Str
  defaultRisk : Risk
  category : Str

/-- The fixed priority-ordered category rules of the spec (financial →
termination → liability → intellectual_property → confidentiality →
obligation → warranty → dispute_resolution → governing_law → benefit). -/
def categoryRules : List CategoryRule :=
  [⟨[str "payment", str "fee", str "cost", str "compensation"],
    str "financial", Risk.medium, str "Financial Terms"⟩,
   ⟨[str "terminat", str "end", str "cancel", str "expire"],
    str "termination", Risk.medium, str "Termination"⟩,
   ⟨[str "liability", str "damages", str "indemnif", str "waive",
     str "disclaim", str "limit"],
    str "liability", Risk.high, str "Liability & Risk"⟩,
   ⟨[str "intellectual property", str "copyright", str "trademark",
     str "patent", str "proprietary"],
    str "intellectual_property", Risk.medium, str "Intellectual Property"⟩,
   ⟨[str "confidential", str "non-disclosure", str "proprietary information",
     str "trade secret"],
    str "confidentiality", Risk.medium, str "Confidentiality"⟩,
   ⟨[str "shall", str "must", str "required", str "obligation"],
    str "obligation", Risk.medium, str "Obligations"⟩,
   ⟨[str "warrant", str "represent", str "guarantee", str "assure"],
    str "warranty", Risk.low, str "Warranties"⟩,
   ⟨[str "dispute", str "arbitration", str "mediation", str "litigation"],
    str "dispute_resolution", Risk.medium, str "Dispute Resolution"⟩,
   ⟨[str "governing law", str "jurisdiction", str "venue", str "court"],
    str "governing_law", Risk.low, str "Legal Framework"⟩,
   ⟨[str "benefit", str "advantage", str "protection", str "right"],
    str "benefit", Risk.positive, str "Benefits & Rights"⟩]

/-- First-match-wins evaluation of the ordered category rules; no match
yields the `general` result. -/
def firstCategoryMatch (lowerClause : Str) : List CategoryRule → ClauseAnalysis
  | [] => ⟨str "general", Risk.low, str "General"⟩
  | rule :: rest =>
    if rule.triggers.any (fun t => containsStr lowerClause t) then
      ⟨rule.type, rule.defaultRisk, rule.category⟩
    else
      firstCategoryMatch lowerClause rest

/-- The classifier as the claim states it: category by first matching
rule in the fixed priority order, then the high-risk override forces
`riskLevel = high` whenever any override phrase occurs. -/
def analyzeClauseSpec (clause : Str) : ClauseAnalysis :=
  let lowerClause := toLowerStr clause
  let base := firstCategoryMatch lowerClause categoryRules
  if highRiskTerms.any (fun term => containsStr lowerClause term) then
    { base with riskLevel := Risk.high }
  else
    base

end Flow

namespace Flow

/-- A flow node (`ClauseNode` of the source).  The source stores
`id = "clause_" + (index+1)` and later recovers the numeral with
`parseInt(id.split('_')[1])`; the embedding keeps that numeral directly. -/
structure ClauseNode where
  id : Nat
  text : Str
  type : Str
  riskLevel : Risk
  category : Str
deriving DecidableEq, Inhabited

/-- A relationship record; `from`/`to` hold the numeric part of the
source's `clause_k` identifiers. -/
structure Rel where
  src : Nat
  dst : Nat
  type : Str
  description : Str
deriving DecidableEq

/-- `findRelationship` of the source: the six checks in source order,
each returning immediately on success. -/
def findRelationship (node1 node2 : ClauseNode) (clause1 clause2 : Str) :
    Option (Str × Str) :=
  if ((node1.id : Int) - (node2.id : Int)).natAbs = 1 then
    some (str "sequential", str "Sequential clauses in the document")
  else if (containsStr clause1 (str "if") || containsStr clause1 (str "provided that") ||
        containsStr clause1 (str "subject to")) &&
      (containsStr clause2 (str "then") || containsStr clause2 (str "shall") ||
        containsStr clause2 (str "must")) then
    some (str "conditional", str "Conditional dependency between clauses")
  else if containsStr clause1 (str "section") || containsStr clause1 (str "paragraph") ||
      containsStr clause1 (str "clause") then
    some (str "reference", str "One clause references another")
  else if (node1.riskLevel = Risk.high ∧ node2.riskLevel = Risk.positive) ∨
      (node1.riskLevel = Risk.positive ∧ node2.riskLevel = Risk.high) then
    some (str "conflict", str "Potentially conflicting terms")
  else if node1.category = node2.category ∧ node1.category ≠ str "General" then
    some (str "category", str "Both relate to " ++ node1.category)
  else if (node1.type = str "obligation" ∧ node2.type = str "financial") ∨
      (node1.type = str "termination" ∧ node2.type = str "liability") then
    some (str "dependency", str "One clause depends on another")
  else
    none

end Flow

namespace Flow

/-- One relationship rule of the spec: a predicate on the pair together
with the emitted type and description. -/
structure RelRule where
  cond : ClauseNode → ClauseNode → Str → Str → Bool
  type : Str
  descr : ClauseNode → Str

/-- The six relationship rules in the spec's exact priority order:
sequential → conditional → reference → conflict → category → dependency. -/
def relRules : List RelRule :=
  [⟨fun n1 n2 _ _ => ((n1.id : Int) - (n2.id : Int)).natAbs = 1,
    str "sequential", fun _ => str "Sequential clauses in the document"⟩,
   ⟨fun _ _ c1 c2 =>
      (containsStr c1 (str "if") || containsStr c1 (str "provided that") ||
        containsStr c1 (str "subject to")) &&
      (containsStr c2 (str "then") || containsStr c2 (str "shall") ||
        containsStr c2 (str "must")),
    str "conditional", fun _ => str "Conditional dependency between clauses"⟩,
   ⟨fun _ _ c1 _ =>
      containsStr c1 (str "section") || containsStr c1 (str "paragraph") ||
        containsStr c1 (str "clause"),
    str "reference", fun _ => str "One clause references another"⟩,
   ⟨fun n1 n2 _ _ =>
      (n1.riskLevel = Risk.high ∧ n2.riskLevel = Risk.positive) ∨
        (n1.riskLevel = Risk.positive ∧ n2.riskLevel = Risk.high),
    str "conflict", fun _ => str "Potentially conflicting terms"⟩,
   ⟨fun n1 n2 _ _ => n1.category = n2.category ∧ n1.category ≠ str "General",
    str "category", fun n1 => str "Both relate to " ++ n1.category⟩,
   ⟨fun n1 n2 _ _ =>
      (n1.type = str "obligation" ∧ n2.type = str "financial") ∨
        (n1.type = str "termination" ∧ n2.type = str "liability"),
    str "dependency", fun _ => str "One clause depends on another"⟩]

/-- First-match-wins evaluation of the ordered relationship rules; no
relationship is emitted when no rule matches. -/
def firstRelMatch (n1 n2 : ClauseNode) (c1 c2 : Str) :
    List RelRule → Option (Str × Str)
  | [] => none
  | rule :: rest =>
    if rule.cond n1 n2 c1 c2 then some (rule.type, rule.descr n1)
    else firstRelMatch n1 n2 c1 c2 rest

/-- The relationship finder as the claim states it. -/
def findRelationshipSpec (n1 n2 : ClauseNode) (c1 c2 : Str) :
    Option (Str × Str) :=
  firstRelMatch n1 n2 c1 c2 relRules

/-- The index pairs `(i, j)`, `i < j < n`, in the iteration order of the
source's nested loops. -/
def pairsUpTo (n : Nat) : List (Nat × Nat) :=
  (List.range n).flatMap (fun i => ((List.range n).drop (i + 1)).map (fun j => (i, j)))

/-- `generateRelationships` of the source: for each pair (i, j), i < j,
call `findRelationship` on the nodes and the lower-cased clauses
(`clauses[i]?.toLowerCase() || ''`) and emit at most one record. -/
def generateRelationships (nodes : List ClauseNode) (clauses : List Str) :
    List Rel :=
  (pairsUpTo nodes.length).filterMap (fun p =>
    let node1 := nodes.getD p.1 default
    let node2 := nodes.getD p.2 default
    let clause1 := toLowerStr (clauses.getD p.1 [])
    let clause2 := toLowerStr (clauses.getD p.2 [])
    (findRelationship node1 node2 clause1 clause2).map (fun rel =>
      ⟨node1.id, node2.id, rel.1, rel.2⟩))

/-- The node list of `generateFlowData`: clause k (0-based) becomes the
node with id `k+1` and the classification of `analyzeClause` (the
source also truncates the display text to 100 characters, irrelevant
here but kept). -/
def buildNodes (clauses : List Str) : List ClauseNode :=
  clauses.enum.map (fun p =>
    let analysis := analyzeClause p.2
    { id := p.1 + 1
      text := p.2.take 100 ++ (if 100 < p.2.length then str "..." else [])
      type := analysis.type
      riskLevel := analysis.riskLevel
      category := analysis.category })

/-- The relationship list computed by `generateFlowData` for a text. -/
def relationshipsOf (text : Str) : List Rel :=
  generateRelationships (buildNodes (extractClauses text)) (extractClauses text)

end Flow

namespace Analyze

/-- `riskLevel` of an analysis `Clause` (`'high' | 'medium' | 'low'` in
the source; note this type, unlike the flow node's, has no `positive`). -/
inductive RiskLevel where
  | high | medium | low
deriving DecidableEq, Inhabited

/-- `type` of an analysis `Clause` (`'risk' | 'neutral' | 'positive'`). -/
inductive ClauseType where
  | risk | neutral | positive
deriving DecidableEq, Inhabited

/-- An analysis `Clause` of the source. -/
structure Clause where
  text : Str
  type : ClauseType
  riskLevel : RiskLevel
  explanation : Str
deriving DecidableEq, Inhabited

/-- The high-risk regex set `riskPatterns.high.patterns`, each regex
`/a.*b/i` given by its literal pieces. -/
def highPatterns : List (List Str) :=
  [[str "liability", str "unlimited"], [str "indemnif", str "all", str "claims"],
   [str "waive", str "all", str "rights"], [str "exclusive", str "remedy"],
   [str "no", str "warranty"], [str "as", str "is", str "basis"],
   [str "liquidated", str "damages"], [str "penalty"], [str "forfeit"],
   [str "immediate", str "termination"], [str "sole", str "discretion"],
   [str "irrevocable"], [str "personal", str "guarantee"]]

/-- The medium-risk regex set `riskPatterns.medium.patterns`. -/
def mediumPatterns : List (List Str) :=
  [[str "limitation", str "liability"], [str "consequential", str "damages"],
   [str "material", str "breach"], [str "cure", str "period"],
   [str "arbitration", str "binding"], [str "governing", str "law"],
   [str "assignment", str "consent"], [str "modification", str "writing"],
   [str "confidentiality"], [str "non", str "compete"],
   [str "intellectual", str "property"]]

/-- The low-risk regex set `riskPatterns.low.patterns`. -/
def lowPatterns : List (List Str) :=
  [[str "reasonable", str "efforts"], [str "good", str "faith"],
   [str "mutual", str "agreement"], [str "written", str "notice"],
   [str "business", str "days"], [str "standard", str "terms"]]

/-- The positive pattern set `positivePatterns.patterns`. -/
def positivePatterns : List (List Str) :=
  [[str "warranty", str "provided"], [str "guarantee", str "quality"],
   [str "right", str "to", str "cure"], [str "notice", str "period"],
   [str "mutual", str "termination"], [str "fair", str "market", str "value"],
   [str "reasonable", str "compensation"],
   [str "protection", str "of", str "rights"]]

/-- `/p/i.test sentence` for a pattern of literal pieces `p` (the `/i`
flag is realised by lower-casing the sentence; pieces are lower-case). -/
def testPattern (parts : List Str) (sentence : Str) : Bool :=
  regexSeq parts (toLowerStr sentence)

/-- `generateRiskExplanation` of the source. -/
def generateRiskExplanation (sentence : Str) (riskLevel : Str) : Str :=
  let lowerSentence := toLowerStr sentence
  if containsStr lowerSentence (str "unlimited") ∧ containsStr lowerSentence (str "liability") then
    str "This clause exposes you to unlimited financial liability, which could result in significant financial loss beyond the contract value."
  else if containsStr lowerSentence (str "indemnif") then
    str "This indemnification clause requires you to protect the other party from legal claims, potentially at significant cost."
  else if containsStr lowerSentence (str "waive") ∧ containsStr lowerSentence (str "rights") then
    str "This clause requires you to give up important legal rights, which could limit your options if disputes arise."
  else if containsStr lowerSentence (str "no warranty") || containsStr lowerSentence (str "as is") then
    str "This disclaimer removes warranties and protections, meaning you accept the product/service without guarantees."
  else if containsStr lowerSentence (str "penalty") || containsStr lowerSentence (str "liquidated damages") then
    str "This clause imposes financial penalties that could be costly if you fail to meet certain obligations."
  else if containsStr lowerSentence (str "immediate termination") then
    str "This allows for immediate contract termination, which could disrupt your business operations without notice."
  else if containsStr lowerSentence (str "sole discretion") then
    str "This gives the other party unilateral decision-making power, potentially limiting your input on important matters."
  else if riskLevel = str "high" then
    str "This clause contains terms that could expose you to significant risk or liability. Consider negotiating modifications."
  else if riskLevel = str "medium" then
    str "This clause has moderate risk implications and should be reviewed carefully to understand your obligations."
  else
    str "This clause should be reviewed to understand its implications for your rights and obligations."

/-- `generatePositiveExplanation` of the source. -/
def generatePositiveExplanation (sentence : Str) : Str :=
  let lowerSentence := toLowerStr sentence
  if containsStr lowerSentence (str "warranty") || containsStr lowerSentence (str "guarantee") then
    str "This clause provides you with warranties or guarantees, offering protection and recourse if issues arise."
  else if containsStr lowerSentence (str "right to cure") then
    str "This gives you the opportunity to fix any breaches before facing penalties, providing valuable protection."
  else if containsStr lowerSentence (str "notice period") then
    str "This ensures you receive adequate notice before any adverse actions, giving you time to respond."
  else if containsStr lowerSentence (str "fair market value") then
    str "This ensures pricing or valuations are based on fair market standards, protecting against unfair terms."
  else
    str "This clause appears to provide beneficial terms or protections in your favor."

/-- `generateNeutralExplanation` of the source. -/
def generateNeutralExplanation (sentence : Str) : Str :=
  let lowerSentence := toLowerStr sentence
  if containsStr lowerSentence (str "reasonable efforts") then
    str "This sets a reasonable standard for performance obligations without being overly burdensome."
  else if containsStr lowerSentence (str "good faith") then
    str "This requires both parties to act honestly and fairly in their dealings under the contract."
  else if containsStr lowerSentence (str "written notice") then
    str "This establishes clear communication requirements, ensuring important notices are properly documented."
  else
    str "This appears to be a standard contractual provision with balanced terms for both parties."

/-- The keyword list of `containsImportantLegalTerms`. -/
def importantTerms : List Str :=
  [str "force majeure", str "assignment", str "severability",
   str "entire agreement", str "governing law", str "jurisdiction",
   str "dispute resolution", str "arbitration", str "intellectual property",
   str "trade secrets", str "confidential information", str "payment terms",
   str "delivery terms", str "performance standards"]

/-- `containsImportantLegalTerms` of the source. -/
def containsImportantLegalTerms (sentence : Str) : Bool :=
  importantTerms.any (fun term => containsStr (toLowerStr sentence) term)

/-- The per-sentence body of the analysis loop of
`analyzeDocumentClauses`: each sentence contributes at most one clause,
produced by the first matching tier (high → medium → positive → low →
important-legal-terms), after the `trimmed.length < 30` guard. -/
def analyzeSentence (sentence : Str) : Option Clause :=
  let trimmed := trimStr sentence
  if trimmed.length < 30 then none
  else if highPatterns.any (fun p => testPattern p trimmed) then
    some ⟨trimmed, ClauseType.risk, RiskLevel.high,
      generateRiskExplanation trimmed (str "high")⟩
  else if mediumPatterns.any (fun p => testPattern p trimmed) then
    some ⟨trimmed, ClauseType.risk, RiskLevel.medium,
      generateRiskExplanation trimmed (str "medium")⟩
  else if positivePatterns.any (fun p => testPattern p trimmed) then
    some ⟨trimmed, ClauseType.positive, RiskLevel.low,
      generatePositiveExplanation trimmed⟩
  else if lowPatterns.any (fun p => testPattern p trimmed) then
    some ⟨trimmed, ClauseType.neutral, RiskLevel.low,
      generateNeutralExplanation trimmed⟩
  else if containsImportantLegalTerms trimmed then
    some ⟨trimmed, ClauseType.neutral, RiskLevel.medium,
      str "This clause contains important legal terms that should be reviewed carefully."⟩
  else
    none

/-- The sentence list of `analyzeDocumentClauses`:
`text.split(/[.!?]+/).filter(s => s.trim().length > 20)`. -/
def sentencesOf (text : Str) : List Str :=
  (splitPunct text).filter (fun s => 20 < (trimStr s).length)

/-- `performGeneralAnalysis` of the source: up to three synthetic
clauses from independent whole-document substring checks. -/
def performGeneralAnalysis (text : Str) : List Clause :=
  let lowerText := toLowerStr text
  (if containsStr lowerText (str "employment") || containsStr lowerText (str "employee") then
    [⟨str "Employment agreement detected", ClauseType.neutral, RiskLevel.medium,
      str "Employment agreements typically contain important terms regarding compensation, benefits, termination, and post-employment obligations. Review carefully for non-compete clauses and termination conditions."⟩]
  else []) ++
  (if containsStr lowerText (str "payment") ∧ containsStr lowerText (str "terms") then
    [⟨str "Payment terms identified", ClauseType.neutral, RiskLevel.medium,
      str "Payment terms define when and how payments must be made. Ensure you understand due dates, late fees, and acceptable payment methods."⟩]
  else []) ++
  (if containsStr lowerText (str "termination") then
    [⟨str "Termination provisions found", ClauseType.risk, RiskLevel.medium,
      str "Termination clauses define how and when the contract can be ended. Pay attention to notice requirements, termination fees, and post-termination obligations."⟩]
  else [])

/-- `analyzeDocumentClauses` of the source (the general-analysis
fallback fires exactly when the per-sentence pass found nothing). -/
def analyzeDocumentClauses (text : Str) : List Clause :=
  let clauses := (sentencesOf text).filterMap analyzeSentence
  if clauses.isEmpty then performGeneralAnalysis text else clauses

/-- Base score of a clause by risk level (the `switch` of the source). -/
def baseScore : RiskLevel → Int
  | RiskLevel.high => 80
  | RiskLevel.medium => 50
  | RiskLevel.low => 20

/-- Weight of a clause by risk level. -/
def baseWeight : RiskLevel → Int
  | RiskLevel.high => 3
  | RiskLevel.medium => 2
  | RiskLevel.low => 1

/-- Score adjustment by clause type. -/
def typeAdj : ClauseType → Int
  | ClauseType.risk => 10
  | ClauseType.positive => -15
  | ClauseType.neutral => 0

/-- The adjusted per-clause score `score` of the source's loop. -/
def clauseScore (c : Clause) : Int := baseScore c.riskLevel + typeAdj c.type

/-- The weight of a clause. -/
def clauseWeight (c : Clause) : Int := baseWeight c.riskLevel

/-- One iteration of the scorer loop: accumulates
`(totalScore, weightedCount)`. -/
def scoreStep (acc : Int × Int) (c : Clause) : Int × Int :=
  (acc.1 + clauseScore c * clauseWeight c, acc.2 + clauseWeight c)

/-- `calculateOverallRiskScore` of the source.  JS `Math.round` on the
(non-negative) average is `round : ℚ → ℤ`; `Math.max(0, Math.min(100, ·))`
is the final clamp. -/
def calculateOverallRiskScore (clauses : List Clause) : Int :=
  if clauses.isEmpty then 30
  else
    let acc := clauses.foldl scoreStep (0, 0)
    let averageScore : ℚ := if 0 < acc.2 then (acc.1 : ℚ) / (acc.2 : ℚ) else 30
    max 0 (min 100 (round averageScore))

/-- `calculateOverallRiskScore` without the final clamp (used to show
the clamp never changes the value). -/
def riskScoreUnclamped (clauses : List Clause) : Int :=
  if clauses.isEmpty then 30
  else
    let acc := clauses.foldl scoreStep (0, 0)
    let averageScore : ℚ := if 0 < acc.2 then (acc.1 : ℚ) / (acc.2 : ℚ) else 30
    round averageScore

/-- Per-clause base score of the claim (`high=80, medium=50, low=20`). -/
def specBase : RiskLevel → ℚ
  | RiskLevel.high => 80
  | RiskLevel.medium => 50
  | RiskLevel.low => 20

/-- Per-clause type adjustment of the claim (`risk +10, positive −15,
neutral +0`). -/
def specAdj : ClauseType → ℚ
  | ClauseType.risk => 10
  | ClauseType.positive => -15
  | ClauseType.neutral => 0

/-- Per-clause weight of the claim (`high=3, medium=2, low=1`). -/
def specWeight : RiskLevel → ℚ
  | RiskLevel.high => 3
  | RiskLevel.medium => 2
  | RiskLevel.low => 1

/-- The Risk Scorer as the claim states it: 30 on the empty list, else
the weighted average Σ(scoreᵢ·weightᵢ)/Σ(weightᵢ) with
`scoreᵢ = base + adjustment`, clamped to [0,100] and rounded. -/
def specRiskScore (clauses : List Clause) : Int :=
  if clauses = [] then 30
  else
    let total : ℚ :=
      (clauses.map (fun c => (specBase c.riskLevel + specAdj c.type) * specWeight c.riskLevel)).sum
    let weights : ℚ := (clauses.map (fun c => specWeight c.riskLevel)).sum
    min 100 (max 0 (round (total / weights)))

/-- The clause with a given risk level substituted, everything else
(including the type) held fixed. -/
def withRisk (c : Clause) (rl : RiskLevel) : Clause := { c with riskLevel := rl }

/-- The (type, riskLevel) pairs the document-analysis pass can emit. -/
def allowedPair : ClauseType → RiskLevel → Bool
  | ClauseType.risk, RiskLevel.high => true
  | ClauseType.risk, RiskLevel.medium => true
  | ClauseType.positive, RiskLevel.low => true
  | ClauseType.neutral, RiskLevel.medium => true
  | ClauseType.neutral, RiskLevel.low => true
  | _, _ => false

end Analyze

namespace Summarize

/-- The fixed legal-keyword list of `ruleBasedSummarization`. -/
def legalKeywords : List Str :=
  [str "agreement", str "contract", str "party", str "parties",
   str "terms", str "conditions", str "payment", str "liability",
   str "warranty", str "termination", str "breach", str "confidentiality",
   str "intellectual property", str "indemnification", str "governing law",
   str "jurisdiction", str "dispute", str "arbitration",
   str "force majeure", str "assignment", str "modification",
   str "severability"]

/-- The sentence list of the summarizer:
`text.split(/[.!?]+/).filter(s => s.trim().length > 20)`. -/
def sentencesOf (text : Str) : List Str :=
  (splitPunct text).filter (fun s => 20 < (trimStr s).length)

/-- A scored sentence record `{ sentence: sentence.trim(), score, index }`. -/
structure Scored where
  sentence : Str
  score : Nat
  index : Nat
deriving DecidableEq

/-- The keyword part of the sentence score: the source's `forEach` adds 2
for each keyword contained in the lower-cased sentence. -/
def keywordScore (sentence : Str) : Nat :=
  legalKeywords.foldl
    (fun sc keyword => if containsStr (toLowerStr sentence) keyword then sc + 2 else sc) 0

/-- The full sentence score: keywords, +3 for the first or last sentence,
+1 for length strictly between 50 and 200. -/
def scoreOf (sentence : Str) (index n : Nat) : Nat :=
  keywordScore sentence +
    (if index = 0 ∨ index = n - 1 then 3 else 0) +
    (if 50 < sentence.length ∧ sentence.length < 200 then 1 else 0)

/-- `scoredSentences` of the source, in original order. -/
def scoredSentences (text : Str) : List Scored :=
  let sentences := sentencesOf text
  sentences.enum.map (fun p =>
    ⟨trimStr p.2, scoreOf p.2 p.1 sentences.length, p.1⟩)

/-- The order realised by the stable JS sort
`(a, b) => b.score - a.score`: score descending, ties kept in original
(index) order. -/
def byScoreDesc (a b : Scored) : Prop :=
  b.score < a.score ∨ (b.score = a.score ∧ a.index ≤ b.index)

instance : DecidableRel byScoreDesc := fun a b => by
  unfold byScoreDesc; infer_instance

instance : IsTotal Scored byScoreDesc :=
  ⟨fun a b => by unfold byScoreDesc; omega⟩

instance : IsTrans Scored byScoreDesc :=
  ⟨fun a b c h1 h2 => by unfold byScoreDesc at *; omega⟩

/-- The order realised by the stable JS sort `(a, b) => a.index - b.index`
(indices are pairwise distinct where it is used). -/
def byIndexAsc (a b : Scored) : Prop := a.index ≤ b.index

instance : DecidableRel byIndexAsc := fun a b => by
  unfold byIndexAsc; infer_instance

instance : IsTotal Scored byIndexAsc :=
  ⟨fun a b => by unfold byIndexAsc; omega⟩

instance : IsTrans Scored byIndexAsc :=
  ⟨fun a b c h1 h2 => by unfold byIndexAsc at *; omega⟩

/-- `Math.ceil(n * 0.3)` of the source.  For every `n`, IEEE-double
`n * 0.3` never crosses an integer boundary away from the exact value
`3n/10` (the double closest to 0.3 is below it by less than half an ulp
of `3k` for `n = 10k`, and otherwise the exact value is at distance
≥ 1/10 from any integer), so the ceiling equals the exact
`⌈3n/10⌉ = (3n + 9) / 10`. -/
def ceilThreeTenths (n : Nat) : Nat := (3 * n + 9) / 10

/-- `slice(0, min(5, ceil(0.3 * count)))` bound of the source. -/
def selectCount (n : Nat) : Nat := min 5 (ceilThreeTenths n)

/-- The selection of `ruleBasedSummarization`: stable-sort by descending
score, take the top `selectCount`, stable-sort the selection back by
original index. -/
def selectedScored (text : Str) : List Scored :=
  List.insertionSort byIndexAsc
    ((List.insertionSort byScoreDesc (scoredSentences text)).take
      (selectCount (sentencesOf text).length))

/-- `topSentences` of the source (the selected sentences in document
order). -/
def topSentences (text : Str) : List Str :=
  (selectedScored text).map (fun it => it.sentence)

/-- `identifyDocumentType` of the source. -/
def identifyDocumentType (text : Str) : Str :=
  let lowerText := toLowerStr text
  if containsStr lowerText (str "employment") || containsStr lowerText (str "employee") then
    str "an employment agreement"
  else if containsStr lowerText (str "service") ∧ containsStr lowerText (str "agreement") then
    str "a service agreement"
  else if containsStr lowerText (str "lease") || containsStr lowerText (str "rental") then
    str "a lease agreement"
  else if containsStr lowerText (str "purchase") || containsStr lowerText (str "sale") then
    str "a purchase agreement"
  else if containsStr lowerText (str "license") || containsStr lowerText (str "licensing") then
    str "a licensing agreement"
  else if containsStr lowerText (str "confidentiality") || containsStr lowerText (str "non-disclosure") then
    str "a confidentiality agreement"
  else if containsStr lowerText (str "partnership") || containsStr lowerText (str "joint venture") then
    str "a partnership agreement"
  else
    str "a legal document"

/-- JS `Array.prototype.join(sep)`. -/
def joinSep (sep : Str) : List Str → Str
  | [] => []
  | [s] => s
  | s :: rest => s ++ sep ++ joinSep sep rest

/-- `ruleBasedSummarization` of the source (the deterministic fallback
path; the network strategies are outside this core). -/
def ruleBasedSummarization (text : Str) : Str :=
  if (sentencesOf text).isEmpty then
    str "Unable to generate summary from the provided text."
  else
    let summary0 := joinSep (str ". ") (topSentences text)
    let hasLegalTerms := legalKeywords.any (fun k => containsStr (toLowerStr text) k)
    let summary1 :=
      if hasLegalTerms then
        str "This appears to be " ++ identifyDocumentType text ++ str ". " ++ summary0
      else summary0
    if summary1.getLast? = some '.' then summary1 else summary1 ++ str "."

end Summarize

namespace Chat

/-- The apostrophe character (several canned answers contain one). -/
def apos : Char := Char.ofNat 39

/-- The topic labels of the question pattern groups, in source order. -/
inductive Topic where
  | definitions | parties | timing | financial | risk
  | termination | obligations | warranties
deriving DecidableEq

/-- The ordered question pattern groups (`questionPatterns` of the
source): trigger substrings per topic. -/
def questionGroups : List (Topic × List Str) :=
  [(Topic.definitions, [str "what are", str "what is", str "define", str "explain"]),
   (Topic.parties, [str "who is", str "who are", str "which party", str "parties"]),
   (Topic.timing, [str "when", str "what date", str "how long", str "duration"]),
   (Topic.financial, [str "how much", str "cost", str "price", str "fee", str "payment"]),
   (Topic.risk, [str "risk", str "danger", str "liability", str "penalty"]),
   (Topic.termination, [str "terminate", str "end", str "cancel", str "exit"]),
   (Topic.obligations, [str "obligation", str "responsibility", str "duty", str "must"]),
   (Topic.warranties, [str "warranty", str "guarantee", str "protection"])]

/-- The first group whose triggers occur in the (lower-cased) question,
exactly as the source's first-match loop finds it. -/
def matchedTopic (lowerQuestion : Str) : Option Topic :=
  (questionGroups.find? (fun g => g.2.any (fun p => containsStr lowerQuestion p))).map
    (fun g => g.1)

/-- The context sentences the handlers scan: `context.split(/[.!?]+/)`
(no length filter in the topic handlers). -/
def contextSentences (context : Str) : List Str := splitPunct context

/-- Qualifying-sentence predicate of `findDefinitions`. -/
def defPred (sentence : Str) : Bool :=
  let lower := toLowerStr sentence
  containsStr lower (str "means") || containsStr lower (str "defined as") ||
    containsStr lower (str "refers to") || containsStr lower (str "shall mean")

/-- `findDefinitions` of the source (returns the empty string — the
fall-through signal — when no sentence qualifies). -/
def findDefinitions (_question context : Str) : Str :=
  let definitionSentences := (contextSentences context).filter defPred
  if definitionSentences.isEmpty then []
  else
    str "Based on the document, here are the relevant definitions:\n\n" ++
      Summarize.joinSep (str ". ") (definitionSentences.take 3) ++ str "."

/-- Qualifying-sentence predicate of `findParties`. -/
def partyPred (sentence : Str) : Bool :=
  let lower := toLowerStr sentence
  containsStr lower (str "party") || containsStr lower (str "client") ||
    containsStr lower (str "contractor") || containsStr lower (str "company") ||
    containsStr lower (str "agreement between")

/-- The canned no-match answer of `findParties`. -/
def partiesNoMatchMsg : Str :=
  str "I could not clearly identify the specific parties from the document text."

/-- `findParties` of the source (returns a topic-specific message, not
the empty string, when no sentence qualifies). -/
def findParties (_question context : Str) : Str :=
  let partySentences := (contextSentences context).filter partyPred
  if partySentences.isEmpty then partiesNoMatchMsg
  else
    str "The parties involved in this agreement are:\n\n" ++
      Summarize.joinSep (str ". ") (partySentences.take 2) ++ str "."

/-- Qualifying-sentence predicate of `findTiming`. -/
def timingPred (sentence : Str) : Bool :=
  let lower := toLowerStr sentence
  containsStr lower (str "days") || containsStr lower (str "months") ||
    containsStr lower (str "years") || containsStr lower (str "date") ||
    containsStr lower (str "within") || containsStr lower (str "duration") ||
    containsStr lower (str "term")

/-- `findTiming` of the source. -/
def findTiming (_question context : Str) : Str :=
  let timingSentences := (contextSentences context).filter timingPred
  if timingSentences.isEmpty then
    str "I could not find specific timing or duration information in the document."
  else
    str "Here are the timing-related terms from the document:\n\n" ++
      Summarize.joinSep (str ". ") (timingSentences.take 3) ++ str "."

/-- Qualifying-sentence predicate of `findFinancialTerms`. -/
def financialPred (sentence : Str) : Bool :=
  let lower := toLowerStr sentence
  containsStr lower (str "$") || containsStr lower (str "payment") ||
    containsStr lower (str "fee") || containsStr lower (str "cost") ||
    containsStr lower (str "price") || containsStr lower (str "compensation") ||
    containsStr lower (str "salary") || containsStr lower (str "rate")

/-- `findFinancialTerms` of the source. -/
def findFinancialTerms (_question context : Str) : Str :=
  let financialSentences := (contextSentences context).filter financialPred
  if financialSentences.isEmpty then
    str "I could not find specific financial terms or payment information in the document."
  else
    str "Here are the financial terms mentioned in the document:\n\n" ++
      Summarize.joinSep (str ". ") (financialSentences.take 3) ++ str "."

/-- Qualifying-sentence predicate of `findRisks`. -/
def riskPred (sentence : Str) : Bool :=
  let lower := toLowerStr sentence
  containsStr lower (str "liability") || containsStr lower (str "risk") ||
    containsStr lower (str "penalty") || containsStr lower (str "damages") ||
    containsStr lower (str "indemnif") || containsStr lower (str "waive") ||
    containsStr lower (str "disclaim")

/-- `findRisks` of the source. -/
def findRisks (_question context : Str) : Str :=
  let riskSentences := (contextSentences context).filter riskPred
  if riskSentences.isEmpty then
    str "I did not find any obvious risk-related clauses in the document, but I recommend having a legal professional review the full document."
  else
    str "Here are the risk-related clauses I found:\n\n" ++
      Summarize.joinSep (str ". ") (riskSentences.take 3) ++
      str ". \n\nPlease review these carefully as they may affect your liability and obligations."

/-- Qualifying-sentence predicate of `findTermination`. -/
def terminationPred (sentence : Str) : Bool :=
  let lower := toLowerStr sentence
  containsStr lower (str "terminat") || containsStr lower (str "end") ||
    containsStr lower (str "cancel") || containsStr lower (str "expire") ||
    containsStr lower (str "breach")

/-- `findTermination` of the source. -/
def findTermination (_question context : Str) : Str :=
  let terminationSentences := (contextSentences context).filter terminationPred
  if terminationSentences.isEmpty then
    str "I could not find specific termination clauses in the document."
  else
    str "Here" ++ [apos] ++ str "s what the document says about termination:\n\n" ++
      Summarize.joinSep (str ". ") (terminationSentences.take 3) ++ str "."

/-- Qualifying-sentence predicate of `findObligations`. -/
def obligationPred (sentence : Str) : Bool :=
  let lower := toLowerStr sentence
  containsStr lower (str "shall") || containsStr lower (str "must") ||
    containsStr lower (str "required") || containsStr lower (str "obligation") ||
    containsStr lower (str "responsible") || containsStr lower (str "duty")

/-- `findObligations` of the source. -/
def findObligations (_question context : Str) : Str :=
  let obligationSentences := (contextSentences context).filter obligationPred
  if obligationSentences.isEmpty then
    str "I could not find specific obligations clearly stated in the document."
  else
    str "Here are the key obligations mentioned in the document:\n\n" ++
      Summarize.joinSep (str ". ") (obligationSentences.take 3) ++ str "."

/-- Qualifying-sentence predicate of `findWarranties`. -/
def warrantyPred (sentence : Str) : Bool :=
  let lower := toLowerStr sentence
  containsStr lower (str "warrant") || containsStr lower (str "guarantee") ||
    containsStr lower (str "represent") || containsStr lower (str "assure") ||
    containsStr lower (str "promise")

/-- `findWarranties` of the source. -/
def findWarranties (_question context : Str) : Str :=
  let warrantySentences := (contextSentences context).filter warrantyPred
  if warrantySentences.isEmpty then
    str "I could not find specific warranty or guarantee clauses in the document."
  else
    str "Here" ++ [apos] ++ str "s what the document says about warranties and guarantees:\n\n" ++
      Summarize.joinSep (str ". ") (warrantySentences.take 3) ++ str "."

/-- Dispatch to the topic handlers of the source. -/
def runHandler : Topic → Str → Str → Str
  | Topic.definitions => findDefinitions
  | Topic.parties => findParties
  | Topic.timing => findTiming
  | Topic.financial => findFinancialTerms
  | Topic.risk => findRisks
  | Topic.termination => findTermination
  | Topic.obligations => findObligations
  | Topic.warranties => findWarranties

/-- The stop-word list of `extractRelevantSentences`. -/
def stopWords : List Str :=
  [str "what", str "when", str "where", str "how", str "why", str "does",
   str "will", str "can", str "the", str "and", str "or"]

/-- The question tokens of `extractRelevantSentences`: whitespace-split
lower-cased question, dropping stop-words and tokens of length ≤ 3. -/
def questionWords (question : Str) : List Str :=
  (splitWs (toLowerStr question)).filter
    (fun w => 3 < w.length && !(stopWords.contains w))

/-- The canned answer when no sentence scores above zero. -/
def noInfoMsg : Str :=
  str "I couldn" ++ [apos] ++
    str "t find information directly related to your question in the document. Could you try rephrasing your question or asking about specific terms mentioned in the document?"

/-- `extractRelevantSentences` of the source: generic keyword-overlap
ranking of the context sentences (stable sort by descending score over
the positively-scored sentences, top 3). -/
def extractRelevantSentences (question context : Str) : Str :=
  let qWords := questionWords question
  let sentences := (splitPunct context).filter (fun s => 20 < (trimStr s).length)
  let scored : List Summarize.Scored := sentences.enum.map (fun p =>
    ⟨trimStr p.2, (qWords.filter (fun w => containsStr (toLowerStr p.2) w)).length, p.1⟩)
  let relevant :=
    ((List.insertionSort Summarize.byScoreDesc
        (scored.filter (fun it => 0 < it.score))).take 3).map
      (fun it => it.sentence)
  if relevant.isEmpty then noInfoMsg
  else
    str "Based on your question, here are the most relevant parts of the document:\n\n" ++
      Summarize.joinSep (str ". ") relevant ++ str "."

/-- `generateRuleBasedAnswer` of the source: first matching topic group
wins; its answer is returned when non-empty (JS truthiness), otherwise —
and also when no group matches — the generic keyword-overlap fallback
runs. -/
def generateRuleBasedAnswer (question context : Str) : Str :=
  let lowerQuestion := toLowerStr question
  match matchedTopic lowerQuestion with
  | some t =>
    let answer := runHandler t lowerQuestion context
    if answer.isEmpty then extractRelevantSentences question context else answer
  | none => extractRelevantSentences question context

end Chat

/-- C1: for every text unit, the flow classifier assigns type and
category by testing the substring rules in the fixed priority order
financial → termination → liability → intellectual_property →
confidentiality → obligation → warranty → dispute_resolution →
governing_law → benefit → else general, first match wins, and afterwards
the high-risk override forces `riskLevel = high` whenever any phrase of
the fixed override list occurs in the lower-cased text. -/
theorem analyzeClause_eq_spec (clause : Str) :
    Flow.analyzeClause clause = Flow.analyzeClauseSpec clause := by
  simp only [Flow.analyzeClause, Flow.analyzeClauseSpec, Flow.firstCategoryMatch,
    Flow.categoryRules, List.any_cons, List.any_nil, Bool.or_false, Bool.or_assoc]

/-- C8 (counterexample): a 30-character clause block is accumulated but
dropped by the final filter `clause.length > 30`, so a block of length
exactly 30 is not retained. -/
theorem extractClauses_drops_length_30 :
    Flow.clauseBlocks (str "The agreement is binding today") =
        [str "The agreement is binding today"] ∧
      (str "The agreement is binding today").length = 30 ∧
      Flow.extractClauses (str "The agreement is binding today") = [] := by
  refine ⟨by decide, by decide, by decide⟩

/-- C8 (amended): the final filter drops exactly the clause blocks of
length ≤ 30 — a block is returned iff it was accumulated and is strictly
longer than 30 characters (so every returned clause has length ≥ 31). -/
theorem extractClauses_filter_exact (text : Str) (c : Str) :
    c ∈ Flow.extractClauses text ↔ c ∈ Flow.clauseBlocks text ∧ 30 < c.length := by
  unfold Flow.extractClauses
  simp [List.mem_filter]

namespace Analyze

/-- The scorer loop accumulates exactly the two sums. -/
theorem foldl_scoreStep (l : List Clause) (a b : Int) :
    l.foldl scoreStep (a, b) =
      (a + (l.map (fun c => clauseScore c * clauseWeight c)).sum,
       b + (l.map clauseWeight).sum) := by
  induction l generalizing a b with
  | nil => simp
  | cons c t ih => simp [scoreStep, ih]; constructor <;> ring

/-- Every clause weight is at least 1. -/
theorem one_le_clauseWeight (c : Clause) : 1 ≤ clauseWeight c := by
  cases h : c.riskLevel <;> simp [clauseWeight, baseWeight, h]

/-- The weight sum dominates the length. -/
theorem length_le_weight_sum (l : List Clause) :
    (l.length : Int) ≤ (l.map clauseWeight).sum := by
  induction l with
  | nil => simp
  | cons c t ih =>
    have := one_le_clauseWeight c
    simp only [List.map_cons, List.sum_cons, List.length_cons]
    push_cast
    omega

/-- Casting an integer list sum into ℚ. -/
theorem sum_map_cast (l : List Clause) (f : Clause → Int) :
    (((l.map f).sum : Int) : ℚ) = (l.map (fun c => ((f c : Int) : ℚ))).sum := by
  induction l with
  | nil => simp
  | cons c t ih => simp [ih]

/-- Pointwise: the code's per-clause contribution equals the claim's. -/
theorem contrib_eq_spec (c : Clause) :
    ((clauseScore c * clauseWeight c : Int) : ℚ) =
      (specBase c.riskLevel + specAdj c.type) * specWeight c.riskLevel := by
  cases hr : c.riskLevel <;> cases ht : c.type <;>
    simp [clauseScore, clauseWeight, baseScore, baseWeight, typeAdj,
      specBase, specAdj, specWeight, hr, ht] <;> norm_num

/-- Pointwise: the code's per-clause weight equals the claim's. -/
theorem weight_eq_spec (c : Clause) :
    ((clauseWeight c : Int) : ℚ) = specWeight c.riskLevel := by
  cases hr : c.riskLevel <;>
    simp [clauseWeight, baseWeight, specWeight, hr]

end Analyze

/-- C2: for every clause list the Risk Scorer returns 30 on the empty
list, and otherwise the weighted average Σ(scoreᵢ·weightᵢ)/Σ(weightᵢ)
with score = base-by-riskLevel (high 80, medium 50, low 20) plus the
type adjustment (risk +10, positive −15, neutral 0) and weight
by riskLevel (high 3, medium 2, low 1), clamped to [0,100] and rounded
to the nearest integer. -/
theorem calculateOverallRiskScore_eq_spec (clauses : List Analyze.Clause) :
    Analyze.calculateOverallRiskScore clauses = Analyze.specRiskScore clauses := by
  unfold Analyze.calculateOverallRiskScore Analyze.specRiskScore
  rcases clauses with _ | ⟨c, t⟩
  · simp
  · have hne : ¬((c :: t) = ([] : List Analyze.Clause)) := by simp
    simp only [List.isEmpty_cons, hne, if_false, Bool.false_eq_true]
    rw [Analyze.foldl_scoreStep]
    have hlen : (0 : Int) < ((c :: t).map Analyze.clauseWeight).sum := by
      have := Analyze.length_le_weight_sum (c :: t)
      simp only [List.length_cons] at this
      omega
    simp only [zero_add, hlen, if_true]
    have hT : ((((c :: t).map (fun x => Analyze.clauseScore x * Analyze.clauseWeight x)).sum : Int) : ℚ) =
        ((c :: t).map (fun x =>
          (Analyze.specBase x.riskLevel + Analyze.specAdj x.type) * Analyze.specWeight x.riskLevel)).sum := by
      rw [Analyze.sum_map_cast]
      exact congrArg List.sum (List.map_congr_left (fun x _ => Analyze.contrib_eq_spec x))
    have hW : ((((c :: t).map Analyze.clauseWeight).sum : Int) : ℚ) =
        ((c :: t).map (fun x => Analyze.specWeight x.riskLevel)).sum := by
      rw [Analyze.sum_map_cast]
      exact congrArg List.sum (List.map_congr_left (fun x _ => Analyze.weight_eq_spec x))
    rw [hT, hW]
    omega

/-- `round` on ℚ is monotone. -/
theorem round_mono_q {x y : ℚ} (h : x ≤ y) : round x ≤ round y := by
  rw [round_eq, round_eq]
  exact Int.floor_le_floor (by linarith)

namespace Analyze

/-- Pulling a constant factor out of a mapped sum. -/
theorem sum_map_mul_left (l : List Clause) (r : Int) (f : Clause → Int) :
    (l.map (fun c => r * f c)).sum = r * (l.map f).sum := by
  induction l with
  | nil => simp
  | cons c t ih => simp [ih]; ring

/-- Per-clause lower bound: score·weight is at least 5·weight. -/
theorem five_weight_le_contrib (c : Clause) :
    5 * clauseWeight c ≤ clauseScore c * clauseWeight c := by
  cases hr : c.riskLevel <;> cases ht : c.type <;>
    simp [clauseScore, clauseWeight, baseScore, baseWeight, typeAdj, hr, ht]

/-- Per-clause upper bound: score·weight is at most 90·weight. -/
theorem contrib_le_ninety_weight (c : Clause) :
    clauseScore c * clauseWeight c ≤ 90 * clauseWeight c := by
  cases hr : c.riskLevel <;> cases ht : c.type <;>
    simp [clauseScore, clauseWeight, baseScore, baseWeight, typeAdj, hr, ht]

end Analyze

/-- C10: for every clause list the Risk Scorer returns a value in
[5, 90] (the empty list yields 30), and therefore the final clamp to
[0, 100] never changes the computed rounded average.  (The clause type
of this pass only admits riskLevels high/medium/low.) -/
theorem riskScore_bounds_and_clamp_free (clauses : List Analyze.Clause) :
    5 ≤ Analyze.calculateOverallRiskScore clauses ∧
      Analyze.calculateOverallRiskScore clauses ≤ 90 ∧
      Analyze.calculateOverallRiskScore clauses = Analyze.riskScoreUnclamped clauses := by
  unfold Analyze.calculateOverallRiskScore Analyze.riskScoreUnclamped
  rcases clauses with _ | ⟨c, t⟩
  · refine ⟨by norm_num, by norm_num, rfl⟩
  · simp only [List.isEmpty_cons, Bool.false_eq_true, if_false]
    rw [Analyze.foldl_scoreStep]
    set T : Int := ((c :: t).map (fun x => Analyze.clauseScore x * Analyze.clauseWeight x)).sum with hTdef
    set W : Int := ((c :: t).map Analyze.clauseWeight).sum with hWdef
    have hWpos : (0 : Int) < W := by
      have := Analyze.length_le_weight_sum (c :: t)
      simp only [List.length_cons] at this
      rw [hWdef]
      omega
    have hTlow : 5 * W ≤ T := by
      rw [hTdef, hWdef, ← Analyze.sum_map_mul_left (c :: t) 5 Analyze.clauseWeight]
      exact List.sum_le_sum (fun x _ => Analyze.five_weight_le_contrib x)
    have hThigh : T ≤ 90 * W := by
      rw [hTdef, hWdef, ← Analyze.sum_map_mul_left (c :: t) 90 Analyze.clauseWeight]
      exact List.sum_le_sum (fun x _ => Analyze.contrib_le_ninety_weight x)
    simp only [zero_add, hWpos, if_true]
    have hWq : (0 : ℚ) < (W : ℚ) := by exact_mod_cast hWpos
    have havg_low : (5 : ℚ) ≤ (T : ℚ) / (W : ℚ) := by
      rw [le_div_iff hWq]
      exact_mod_cast hTlow
    have havg_high : (T : ℚ) / (W : ℚ) ≤ 90 := by
      rw [div_le_iff hWq]
      exact_mod_cast hThigh
    have hr_low : (5 : Int) ≤ round ((T : ℚ) / (W : ℚ)) := by
      have := round_mono_q havg_low
      rwa [show ((5 : ℚ)) = ((5 : Int) : ℚ) by norm_num, round_intCast] at this
    have hr_high : round ((T : ℚ) / (W : ℚ)) ≤ 90 := by
      have := round_mono_q havg_high
      rwa [show ((90 : ℚ)) = ((90 : Int) : ℚ) by norm_num, round_intCast] at this
    refine ⟨by omega, by omega, by omega⟩

namespace Analyze

/-- Replacing one element of a clause list changes a mapped sum by the
difference of the two images. -/
theorem sum_map_set (l : List Clause) (i : Nat) (h : i < l.length)
    (c' : Clause) (f : Clause → Int) :
    ((l.set i c').map f).sum = (l.map f).sum - f (l.get ⟨i, h⟩) + f c' := by
  induction l generalizing i with
  | nil => simp at h
  | cons a t ih =>
    cases i with
    | zero => simp [List.set]; ring
    | succ n =>
      have hn : n < t.length := by simpa using h
      simp only [List.set_cons_succ, List.map_cons, List.sum_cons, ih n hn,
        List.get_cons_succ]
      ring

end Analyze

/-- C6: replacing any clause's riskLevel from low to high, holding every
other clause and that clause's type fixed, never decreases the Risk
Scorer's result. -/
theorem riskScore_monotone_low_to_high (cl : List Analyze.Clause) (i : Nat)
    (h : i < cl.length)
    (hlow : (cl.get ⟨i, h⟩).riskLevel = Analyze.RiskLevel.low) :
    Analyze.calculateOverallRiskScore cl ≤
      Analyze.calculateOverallRiskScore
        (cl.set i (Analyze.withRisk (cl.get ⟨i, h⟩) Analyze.RiskLevel.high)) := by
  have hne : cl ≠ [] := by
    intro hc; rw [hc] at h; simp at h
  set old := cl.get ⟨i, h⟩ with hold
  set new := Analyze.withRisk old Analyze.RiskLevel.high with hnew
  unfold Analyze.calculateOverallRiskScore
  have hE1 : cl.isEmpty = false := by
    cases cl with
    | nil => exact absurd rfl hne
    | cons a t => rfl
  have hE2 : (cl.set i new).isEmpty = false := by
    cases cl with
    | nil => exact absurd rfl hne
    | cons a t => cases i <;> rfl
  simp only [hE1, hE2, Bool.false_eq_true, if_false]
  rw [Analyze.foldl_scoreStep, Analyze.foldl_scoreStep]
  set f : Analyze.Clause → Int := fun x => Analyze.clauseScore x * Analyze.clauseWeight x with hf
  set g : Analyze.Clause → Int := Analyze.clauseWeight with hg
  set T : Int := (cl.map f).sum with hT
  set W : Int := (cl.map g).sum with hW
  set a : Int := Analyze.typeAdj old.type with ha
  have hgold : g old = 1 := by
    simp [hg, Analyze.clauseWeight, Analyze.baseWeight, hlow]
  have hsold : Analyze.clauseScore old = 20 + a := by
    simp only [Analyze.clauseScore, Analyze.baseScore, hlow]
  have hfold : f old = 20 + a := by
    rw [hf]
    dsimp only
    rw [hsold, hgold]
    ring
  have hnew_rl : new.riskLevel = Analyze.RiskLevel.high := rfl
  have hnew_ty : new.type = old.type := rfl
  have hgnew : g new = 3 := by
    simp [hg, Analyze.clauseWeight, Analyze.baseWeight, hnew_rl]
  have hsnew : Analyze.clauseScore new = 80 + a := by
    simp only [Analyze.clauseScore, Analyze.baseScore, hnew_rl, hnew_ty]
  have hfnew : f new = (80 + a) * 3 := by
    rw [hf]
    dsimp only
    rw [hsnew, hgnew]
  have hT' : ((cl.set i new).map f).sum = T + (220 + 2 * a) := by
    rw [Analyze.sum_map_set cl i h new f, ← hold, hfold, hfnew, ← hT]
    ring
  have hW' : ((cl.set i new).map g).sum = W + 2 := by
    rw [Analyze.sum_map_set cl i h new g, ← hold, hgold, hgnew, ← hW]
    ring
  rw [hT', hW']
  have hWlen : (cl.length : Int) ≤ W := Analyze.length_le_weight_sum cl
  have hlen1 : 1 ≤ cl.length := by omega
  have hWpos : (0 : Int) < W := by
    have : (1 : Int) ≤ (cl.length : Int) := by exact_mod_cast hlen1
    omega
  have hW'pos : (0 : Int) < W + 2 := by omega
  have hThigh : T ≤ 90 * W := by
    rw [hT, hW, hg, ← Analyze.sum_map_mul_left cl 90 Analyze.clauseWeight]
    exact List.sum_le_sum (fun x _ => Analyze.contrib_le_ninety_weight x)
  have habound : -15 ≤ a ∧ a ≤ 10 := by
    rw [ha]; cases old.type <;> simp [Analyze.typeAdj]
  have hkey : T * (W + 2) ≤ (T + (220 + 2 * a)) * W := by
    have h1 : 2 * T ≤ 180 * W := by linarith
    have h2 : (40 + 2 * a) * W ≥ 0 := by
      apply mul_nonneg
      · omega
      · omega
    nlinarith
  simp only [zero_add, hWpos, hW'pos, if_true]
  have hdiv : ((T : ℚ)) / ((W : ℚ)) ≤ ((T + (220 + 2 * a) : Int) : ℚ) / (((W + 2 : Int)) : ℚ) := by
    rw [div_le_div_iff (by exact_mod_cast hWpos) (by exact_mod_cast hW'pos)]
    exact_mod_cast hkey
  have hround := round_mono_q hdiv
  omega

/-- Witness for C6 at a concrete one-clause list. -/
theorem riskScore_monotone_low_to_high_witness :
    0 < ([⟨[], Analyze.ClauseType.neutral, Analyze.RiskLevel.low, []⟩] : List Analyze.Clause).length ∧
      (([⟨[], Analyze.ClauseType.neutral, Analyze.RiskLevel.low, []⟩] : List Analyze.Clause).get
          ⟨0, by decide⟩).riskLevel = Analyze.RiskLevel.low ∧
      Analyze.calculateOverallRiskScore
          [⟨[], Analyze.ClauseType.neutral, Analyze.RiskLevel.low, []⟩] ≤
        Analyze.calculateOverallRiskScore
          (List.set [⟨[], Analyze.ClauseType.neutral, Analyze.RiskLevel.low, []⟩] 0
            (Analyze.withRisk
              (([⟨[], Analyze.ClauseType.neutral, Analyze.RiskLevel.low, []⟩] : List Analyze.Clause).get
                ⟨0, by decide⟩)
              Analyze.RiskLevel.high)) :=
  ⟨by decide, rfl,
    riskScore_monotone_low_to_high
      [⟨[], Analyze.ClauseType.neutral, Analyze.RiskLevel.low, []⟩] 0 (by decide) rfl⟩

/-- Every clause emitted for a single sentence carries one of the five
allowed (type, riskLevel) pairs. -/
theorem analyzeSentence_allowed (s : Str) (c : Analyze.Clause)
    (h : Analyze.analyzeSentence s = some c) :
    Analyze.allowedPair c.type c.riskLevel = true := by
  unfold Analyze.analyzeSentence at h
  simp only [] at h
  repeat' split at h
  all_goals first
    | (injection h with h2; subst h2; rfl)
    | exact Option.noConfusion h

/-- C9: every Clause produced by the document-analysis pass — the
per-sentence pattern classification and the general-analysis fallback —
has a (type, riskLevel) pair among (risk, high), (risk, medium),
(positive, low), (neutral, medium), (neutral, low); in particular the
riskLevel is always one of high/medium/low (the `Analyze.RiskLevel` type
of this pass has no `positive` value at all). -/
theorem analyzeDocumentClauses_allowed_pairs (text : Str) :
    (Analyze.analyzeDocumentClauses text).all
      (fun c => Analyze.allowedPair c.type c.riskLevel) = true := by
  unfold Analyze.analyzeDocumentClauses
  simp only []
  split
  · unfold Analyze.performGeneralAnalysis
    simp only []
    split <;> split <;> split <;> rfl
  · rw [List.all_eq_true]
    intro c hc
    rw [List.mem_filterMap] at hc
    obtain ⟨s, _, hs⟩ := hc
    exact analyzeSentence_allowed s c hs

namespace Flow

/-- The first-match structure of `findRelationship` coincides with the
spec's ordered rule list. -/
theorem findRelationship_eq_spec (n1 n2 : ClauseNode) (c1 c2 : Str) :
    findRelationship n1 n2 c1 c2 = findRelationshipSpec n1 n2 c1 c2 := by
  simp only [findRelationship, findRelationshipSpec, firstRelMatch, relRules,
    decide_eq_true_eq, Bool.or_assoc]

/-- If at most one source element can be responsible for a
filter-surviving image, the filtered `filterMap` has at most one
element. -/
theorem count_le_one_key {α β : Type} (l : List α) (hl : l.Nodup)
    (f : α → Option β) (p : β → Bool) (a0 : α)
    (hkey : ∀ a ∈ l, ∀ b, f a = some b → p b = true → a = a0) :
    ((l.filterMap f).filter p).length ≤ 1 := by
  induction l with
  | nil => simp
  | cons a t ih =>
    have hnodup := List.nodup_cons.mp hl
    rw [List.filterMap_cons]
    rcases hfa : f a with _ | b
    · exact ih hnodup.2 (fun x hx b hb hp => hkey x (List.mem_cons_of_mem a hx) b hb hp)
    · rw [List.filter_cons]
      by_cases hpb : p b = true
      · simp only [hpb, if_true]
        have hrest : (List.filterMap f t).filter p = [] := by
          rw [List.filter_eq_nil_iff]
          intro x hx hpx
          rw [List.mem_filterMap] at hx
          obtain ⟨a', ha't, hfa'⟩ := hx
          have ha0 : a' = a0 := hkey a' (List.mem_cons_of_mem a ha't) x hfa' hpx
          have haa0 : a = a0 := hkey a (List.mem_cons_self a t) b hfa hpb
          exact hnodup.1 (by rw [haa0, ← ha0]; exact ha't)
        rw [hrest]
        simp
      · simp only [hpb, if_false]
        exact ih hnodup.2 (fun x hx b hb hp => hkey x (List.mem_cons_of_mem a hx) b hb hp)

/-- The iterated pair list is duplicate-free. -/
theorem pairsUpTo_nodup (n : Nat) : (pairsUpTo n).Nodup := by
  unfold pairsUpTo
  rw [List.nodup_flatMap]
  constructor
  · intro i _
    refine List.Nodup.map ?_
      (List.Nodup.sublist (List.drop_sublist (i + 1) (List.range n)) (List.nodup_range n))
    intro x y hxy
    simpa using hxy
  · refine (List.pairwise_lt_range n).imp ?_
    intro i j hij x hxi hxj
    simp only [List.mem_map] at hxi hxj
    obtain ⟨ji, _, rfl⟩ := hxi
    obtain ⟨jj, _, hxx⟩ := hxj
    have : j = i := congrArg Prod.fst hxx
    omega

/-- Each pair component is below `n`. -/
theorem mem_pairsUpTo (n : Nat) (p : Nat × Nat) (hp : p ∈ pairsUpTo n) :
    p.1 < n ∧ p.2 < n := by
  unfold pairsUpTo at hp
  rw [List.mem_flatMap] at hp
  obtain ⟨i, hi, hmem⟩ := hp
  rw [List.mem_map] at hmem
  obtain ⟨j, hj, rfl⟩ := hmem
  have hj2 : j ∈ List.range n :=
    (List.drop_sublist (i + 1) (List.range n)).subset hj
  exact ⟨List.mem_range.mp hi, List.mem_range.mp hj2⟩

/-- The node built from clause `k` carries id `k + 1`. -/
theorem buildNodes_id (clauses : List Str) (k : Nat) (hk : k < clauses.length) :
    ((buildNodes clauses).getD k default).id = k + 1 := by
  unfold buildNodes
  have hk' : k < (clauses.enum.map (fun p =>
      let analysis := analyzeClause p.2
      ({ id := p.1 + 1
         text := p.2.take 100 ++ (if 100 < p.2.length then str "..." else [])
         type := analysis.type
         riskLevel := analysis.riskLevel
         category := analysis.category } : ClauseNode))).length := by
    simpa using hk
  rw [List.getD_eq_getElem _ _ hk']
  simp [List.getElem_enum]

/-- The built node list has one node per clause. -/
theorem buildNodes_length (clauses : List Str) :
    (buildNodes clauses).length = clauses.length := by
  simp [buildNodes]

end Flow

/-- C3: for every text and every index pair (i, j) with i < j, the
Relationship Builder emits at most one relationship for the pair — and
`findRelationship` tests the rules in the exact priority sequential →
conditional → reference → conflict → category → dependency, first match
wins, emitting nothing when no rule matches. -/
theorem relationships_at_most_one_per_pair (text : Str) (i j : Nat) (hij : i < j) :
    ((Flow.relationshipsOf text).filter
        (fun r => r.src = i + 1 && r.dst = j + 1)).length ≤ 1 ∧
      ∀ (n1 n2 : Flow.ClauseNode) (c1 c2 : Str),
        Flow.findRelationship n1 n2 c1 c2 = Flow.findRelationshipSpec n1 n2 c1 c2 := by
  constructor
  · unfold Flow.relationshipsOf Flow.generateRelationships
    apply Flow.count_le_one_key _ (Flow.pairsUpTo_nodup _) _ _ (i, j)
    intro p hp r hF hpr
    obtain ⟨p1, p2⟩ := p
    have hlen := Flow.buildNodes_length (Flow.extractClauses text)
    have hbounds := Flow.mem_pairsUpTo _ _ hp
    rw [hlen] at hbounds
    simp only [] at hF
    rcases hrel : Flow.findRelationship
        ((Flow.buildNodes (Flow.extractClauses text)).getD p1 default)
        ((Flow.buildNodes (Flow.extractClauses text)).getD p2 default)
        (toLowerStr ((Flow.extractClauses text).getD p1 []))
        (toLowerStr ((Flow.extractClauses text).getD p2 [])) with _ | rel
    · rw [hrel] at hF
      exact Option.noConfusion hF
    · rw [hrel] at hF
      simp only [Option.map_some'] at hF
      have hr : r = ⟨((Flow.buildNodes (Flow.extractClauses text)).getD p1 default).id,
          ((Flow.buildNodes (Flow.extractClauses text)).getD p2 default).id,
          rel.1, rel.2⟩ := (Option.some.inj hF).symm
      subst hr
      simp only [Bool.and_eq_true, decide_eq_true_eq] at hpr
      have h1 := Flow.buildNodes_id (Flow.extractClauses text) p1 hbounds.1
      have h2 := Flow.buildNodes_id (Flow.extractClauses text) p2 hbounds.2
      have : p1 = i := by
        have := hpr.1
        rw [h1] at this
        omega
      have : p2 = j := by
        have := hpr.2
        rw [h2] at this
        omega
      simp_all
  · intro n1 n2 c1 c2
    exact Flow.findRelationship_eq_spec n1 n2 c1 c2

/-- Witness for C3 at a concrete text and the pair (0, 1). -/
theorem relationships_at_most_one_per_pair_witness :
    (0 : Nat) < 1 ∧
      (((Flow.relationshipsOf (str "This agreement shall be binding. Payment is due in thirty days.")).filter
          (fun r => r.src = 0 + 1 && r.dst = 1 + 1)).length ≤ 1 ∧
        ∀ (n1 n2 : Flow.ClauseNode) (c1 c2 : Str),
          Flow.findRelationship n1 n2 c1 c2 = Flow.findRelationshipSpec n1 n2 c1 c2) :=
  ⟨by decide,
    relationships_at_most_one_per_pair
      (str "This agreement shall be binding. Payment is due in thirty days.") 0 1 (by decide)⟩

namespace Summarize

/-- A fold adding 2 per satisfied element counts the satisfying elements. -/
theorem foldl_add_two (l : List Str) (p : Str → Bool) (a : Nat) :
    l.foldl (fun sc k => if p k then sc + 2 else sc) a =
      a + 2 * (l.filter p).length := by
  induction l generalizing a with
  | nil => simp
  | cons k t ih =>
    by_cases hk : p k <;> simp [hk, ih] <;> omega

/-- The keyword fold scores 2 per keyword present in the sentence. -/
theorem keywordScore_eq (s : Str) :
    keywordScore s =
      2 * ((legalKeywords.filter (fun k => containsStr (toLowerStr s) k)).length) := by
  unfold keywordScore
  rw [foldl_add_two]
  simp

/-- The sentence score as the claim states it. -/
def specScore (sentence : Str) (index n : Nat) : Nat :=
  2 * ((legalKeywords.filter (fun k => containsStr (toLowerStr sentence) k)).length) +
    (if index = 0 ∨ index = n - 1 then 3 else 0) +
    (if 50 < sentence.length ∧ sentence.length < 200 then 1 else 0)

/-- `Math.ceil(0.3 * n)` computed exactly: `⌈3n/10⌉ = (3n + 9) / 10`. -/
theorem ceil_three_tenths (n : Nat) :
    Nat.ceil ((0.3 : ℚ) * n) = ceilThreeTenths n := by
  have h03 : (0.3 : ℚ) * n = (3 * n : ℚ) / 10 := by push_cast; ring
  rw [h03]
  unfold ceilThreeTenths
  rcases Nat.eq_zero_or_pos n with hn | hn
  · subst hn; norm_num
  · have hm : (3 * n + 9) / 10 ≠ 0 := by omega
    rw [Nat.ceil_eq_iff hm]
    have hdiv1 : 10 * ((3 * n + 9) / 10) ≤ 3 * n + 9 := by omega
    have hdiv2 : 3 * n + 9 < 10 * ((3 * n + 9) / 10) + 10 := by omega
    constructor
    · rw [lt_div_iff (by norm_num : (0 : ℚ) < 10)]
      have hcast : ((((3 * n + 9) / 10 - 1 : Nat)) : ℚ) * 10 =
          ((((3 * n + 9) / 10 - 1 : Nat) * 10 : Nat) : ℚ) := by push_cast; ring
      rw [hcast]
      exact_mod_cast (by omega : ((3 * n + 9) / 10 - 1) * 10 < 3 * n)
    · rw [div_le_iff (by norm_num : (0 : ℚ) < 10)]
      have hcast : ((((3 * n + 9) / 10 : Nat)) : ℚ) * 10 =
          ((((3 * n + 9) / 10 * 10 : Nat)) : ℚ) := by push_cast; ring
      rw [hcast]
      exact_mod_cast (by omega : 3 * n ≤ (3 * n + 9) / 10 * 10)

/-- The selection as the claim states it: top `min(5, ⌈0.3·n⌉)` by
descending score (stably), re-sorted by original index. -/
def specSelectedSentences (text : Str) : List Str :=
  (List.insertionSort byIndexAsc
      ((List.insertionSort byScoreDesc (scoredSentences text)).take
        (min 5 (Nat.ceil ((0.3 : ℚ) * (sentencesOf text).length))))).map
    (fun it => it.sentence)

end Summarize

/-- C4: every sentence's score is 2 per present keyword of the fixed
legal-keyword list, +3 for the first or last sentence, +1 for length
strictly between 50 and 200; the summary selects the top
`min(5, ceil(0.3·sentenceCount))` sentences by descending score (the JS
sort is stable, so ties keep document order) and re-sorts the selection
by original index. -/
theorem summarizer_scoring_and_selection (text : Str) :
    Summarize.scoredSentences text =
        (Summarize.sentencesOf text).enum.map (fun p =>
          ⟨trimStr p.2, Summarize.specScore p.2 p.1 (Summarize.sentencesOf text).length, p.1⟩) ∧
      Summarize.topSentences text = Summarize.specSelectedSentences text := by
  constructor
  · unfold Summarize.scoredSentences
    apply List.map_congr_left
    intro p _
    have : Summarize.scoreOf p.2 p.1 (Summarize.sentencesOf text).length =
        Summarize.specScore p.2 p.1 (Summarize.sentencesOf text).length := by
      unfold Summarize.scoreOf Summarize.specScore
      rw [Summarize.keywordScore_eq]
    rw [this]
  · unfold Summarize.topSentences Summarize.specSelectedSentences
      Summarize.selectedScored Summarize.selectCount
    rw [Summarize.ceil_three_tenths]

/-- A strictly sorted list of naturals bounded by `n` is a sublist of
`range n`. -/
theorem sorted_lt_sublist_range (ids : List Nat) (n : Nat)
    (hs : List.Sorted (· < ·) ids) (hb : ∀ x ∈ ids, x < n) :
    ids.Sublist (List.range n) := by
  have hnd : ids.Nodup := hs.imp (fun h => Nat.ne_of_lt h)
  have hFs : List.Sorted (· < ·)
      ((List.range n).filter (fun x => decide (x ∈ ids))) :=
    (List.pairwise_lt_range n).filter _
  have hFnd : ((List.range n).filter (fun x => decide (x ∈ ids))).Nodup :=
    List.Nodup.sublist (List.filter_sublist _) (List.nodup_range n)
  have hmem : ∀ a, a ∈ (List.range n).filter (fun x => decide (x ∈ ids)) ↔ a ∈ ids := by
    intro a
    rw [List.mem_filter, List.mem_range, decide_eq_true_eq]
    exact ⟨fun h => h.2, fun h => ⟨hb a h, h⟩⟩
  have hperm : ((List.range n).filter (fun x => decide (x ∈ ids))).Perm ids :=
    (List.perm_ext_iff_of_nodup hFnd hnd).mpr hmem
  haveI : IsAntisymm Nat (· < ·) := ⟨fun a b h1 h2 => absurd h2 (Nat.lt_asymm h1)⟩
  have heq : (List.range n).filter (fun x => decide (x ∈ ids)) = ids :=
    List.eq_of_perm_of_sorted hperm hFs hs
  rw [← heq]
  exact List.filter_sublist _

/-- Reading a list back off `range`-indexed `getD` lookups. -/
theorem map_getD_range {α : Type} (l : List α) (d : α) :
    (List.range l.length).map (fun i => l.getD i d) = l := by
  induction l with
  | nil => simp
  | cons a t ih =>
    rw [List.length_cons, List.range_succ_eq_map, List.map_cons, List.map_map]
    have h2 : (List.range t.length).map ((fun i => (a :: t).getD i d) ∘ Nat.succ) =
        (List.range t.length).map (fun i => t.getD i d) :=
      List.map_congr_left (fun i _ => List.getD_cons_succ)
    rw [List.getD_cons_zero, h2, ih]

namespace Summarize

/-- Every selected item comes from the scored-sentence list. -/
theorem selectedScored_subset (text : Str) (it : Scored)
    (h : it ∈ selectedScored text) : it ∈ scoredSentences text := by
  unfold selectedScored at h
  have h1 : it ∈ (List.insertionSort byScoreDesc (scoredSentences text)).take
      (selectCount (sentencesOf text).length) :=
    ((List.perm_insertionSort byIndexAsc _).mem_iff).mp h
  have h2 : it ∈ List.insertionSort byScoreDesc (scoredSentences text) :=
    (List.take_sublist _ _).subset h1
  exact ((List.perm_insertionSort byScoreDesc _).mem_iff).mp h2

/-- A scored item points back at its source sentence. -/
theorem scoredSentences_mem (text : Str) (it : Scored)
    (h : it ∈ scoredSentences text) :
    it.index < (sentencesOf text).length ∧
      it.sentence = trimStr ((sentencesOf text).getD it.index []) := by
  unfold scoredSentences at h
  rw [List.mem_map] at h
  obtain ⟨p, hp, rfl⟩ := h
  obtain ⟨i, s⟩ := p
  have := List.mem_enum hp
  refine ⟨this.1, ?_⟩
  rw [List.getD_eq_getElem _ _ this.1]
  exact congrArg trimStr this.2

/-- The indices of the scored sentences are exactly `range n`. -/
theorem scoredSentences_indices (text : Str) :
    (scoredSentences text).map (fun it => it.index) =
      List.range (sentencesOf text).length := by
  unfold scoredSentences
  rw [List.map_map]
  have : ((fun it : Scored => it.index) ∘ fun p : Nat × Str =>
      (⟨trimStr p.2, scoreOf p.2 p.1 (sentencesOf text).length, p.1⟩ : Scored)) =
      Prod.fst := rfl
  rw [this, List.enum_map_fst]

/-- The indices of the selection are pairwise distinct. -/
theorem selectedScored_indices_nodup (text : Str) :
    ((selectedScored text).map (fun it => it.index)).Nodup := by
  have hscored : ((scoredSentences text).map (fun it => it.index)).Nodup := by
    rw [scoredSentences_indices]
    exact List.nodup_range _
  have hsort : ((List.insertionSort byScoreDesc (scoredSentences text)).map
      (fun it => it.index)).Nodup :=
    ((List.perm_insertionSort byScoreDesc _).map (fun it => it.index)).symm.nodup hscored
  have htake : (((List.insertionSort byScoreDesc (scoredSentences text)).take
      (selectCount (sentencesOf text).length)).map (fun it => it.index)).Nodup :=
    List.Nodup.sublist (List.Sublist.map _ (List.take_sublist _ _)) hsort
  exact (((List.perm_insertionSort byIndexAsc _).map (fun it => it.index)).symm).nodup htake

/-- The indices of the selection are strictly increasing. -/
theorem selectedScored_indices_sorted (text : Str) :
    List.Sorted (· < ·) ((selectedScored text).map (fun it => it.index)) := by
  have hsorted : List.Sorted byIndexAsc (selectedScored text) :=
    List.sorted_insertionSort byIndexAsc _
  have hle : List.Sorted (· ≤ ·) ((selectedScored text).map (fun it => it.index)) :=
    hsorted.map _ (fun a b hab => hab)
  have hne := selectedScored_indices_nodup text
  exact (hle.and hne).imp (fun h => lt_of_le_of_ne h.1 h.2)

end Summarize

/-- C7: the sentences of the produced summary selection are a sublist —
a subset appearing in the same relative order — of the (trimmed)
sentences of the original input.  (Input acceptance, `length ≥ 50`, is
caller-side validation; the property holds for every text.) -/
theorem summary_sentences_sublist (text : Str) :
    (Summarize.topSentences text).Sublist
      ((Summarize.sentencesOf text).map trimStr) := by
  set n := (Summarize.sentencesOf text).length with hn
  have hids : ((Summarize.selectedScored text).map (fun it => it.index)).Sublist
      (List.range n) := by
    apply sorted_lt_sublist_range _ _ (Summarize.selectedScored_indices_sorted text)
    intro x hx
    rw [List.mem_map] at hx
    obtain ⟨it, hit, rfl⟩ := hx
    exact (Summarize.scoredSentences_mem text it
      (Summarize.selectedScored_subset text it hit)).1
  have hsent : Summarize.topSentences text =
      ((Summarize.selectedScored text).map (fun it => it.index)).map
        (fun i => trimStr ((Summarize.sentencesOf text).getD i [])) := by
    unfold Summarize.topSentences
    rw [List.map_map]
    apply List.map_congr_left
    intro it hit
    exact (Summarize.scoredSentences_mem text it
      (Summarize.selectedScored_subset text it hit)).2
  rw [hsent]
  have htarget : ((Summarize.sentencesOf text).map trimStr) =
      (List.range n).map (fun i => trimStr ((Summarize.sentencesOf text).getD i [])) := by
    have : (fun i => trimStr ((Summarize.sentencesOf text).getD i [])) =
        trimStr ∘ (fun i => (Summarize.sentencesOf text).getD i []) := rfl
    rw [this, ← List.map_map, hn, map_getD_range]
  rw [htarget]
  exact List.Sublist.map _ hids

/-- C5 (amended): when the first topic group whose triggers occur in
the question finds zero qualifying context sentences, only the
definitions handler falls back to the generic keyword-overlap ranking
(its zero-match answer is the empty string); each of the other seven
handlers returns its fixed topic-specific message instead. -/
theorem qa_zero_match_behaviour (question context : Str) :
    (Chat.matchedTopic (toLowerStr question) = some Chat.Topic.definitions →
      (Chat.contextSentences context).filter Chat.defPred = [] →
      Chat.generateRuleBasedAnswer question context =
        Chat.extractRelevantSentences question context) ∧
    (Chat.matchedTopic (toLowerStr question) = some Chat.Topic.parties →
      (Chat.contextSentences context).filter Chat.partyPred = [] →
      Chat.generateRuleBasedAnswer question context = Chat.partiesNoMatchMsg) ∧
    (Chat.matchedTopic (toLowerStr question) = some Chat.Topic.timing →
      (Chat.contextSentences context).filter Chat.timingPred = [] →
      Chat.generateRuleBasedAnswer question context =
        str "I could not find specific timing or duration information in the document.") ∧
    (Chat.matchedTopic (toLowerStr question) = some Chat.Topic.financial →
      (Chat.contextSentences context).filter Chat.financialPred = [] →
      Chat.generateRuleBasedAnswer question context =
        str "I could not find specific financial terms or payment information in the document.") ∧
    (Chat.matchedTopic (toLowerStr question) = some Chat.Topic.risk →
      (Chat.contextSentences context).filter Chat.riskPred = [] →
      Chat.generateRuleBasedAnswer question context =
        str "I did not find any obvious risk-related clauses in the document, but I recommend having a legal professional review the full document.") ∧
    (Chat.matchedTopic (toLowerStr question) = some Chat.Topic.termination →
      (Chat.contextSentences context).filter Chat.terminationPred = [] →
      Chat.generateRuleBasedAnswer question context =
        str "I could not find specific termination clauses in the document.") ∧
    (Chat.matchedTopic (toLowerStr question) = some Chat.Topic.obligations →
      (Chat.contextSentences context).filter Chat.obligationPred = [] →
      Chat.generateRuleBasedAnswer question context =
        str "I could not find specific obligations clearly stated in the document.") ∧
    (Chat.matchedTopic (toLowerStr question) = some Chat.Topic.warranties →
      (Chat.contextSentences context).filter Chat.warrantyPred = [] →
      Chat.generateRuleBasedAnswer question context =
        str "I could not find specific warranty or guarantee clauses in the document.") := by
  refine ⟨?_, ?_, ?_, ?_, ?_, ?_, ?_, ?_⟩
  · intro h1 h2
    simp [Chat.generateRuleBasedAnswer, h1, Chat.runHandler, Chat.findDefinitions, h2]
  · intro h1 h2
    have hmsg : Chat.partiesNoMatchMsg.isEmpty = false := by decide
    simp [Chat.generateRuleBasedAnswer, h1, Chat.runHandler, Chat.findParties, h2, hmsg]
  · intro h1 h2
    have hmsg : (str "I could not find specific timing or duration information in the document.").isEmpty = false := by decide
    simp [Chat.generateRuleBasedAnswer, h1, Chat.runHandler, Chat.findTiming, h2, hmsg]
  · intro h1 h2
    have hmsg : (str "I could not find specific financial terms or payment information in the document.").isEmpty = false := by decide
    simp [Chat.generateRuleBasedAnswer, h1, Chat.runHandler, Chat.findFinancialTerms, h2, hmsg]
  · intro h1 h2
    have hmsg : (str "I did not find any obvious risk-related clauses in the document, but I recommend having a legal professional review the full document.").isEmpty = false := by decide
    simp [Chat.generateRuleBasedAnswer, h1, Chat.runHandler, Chat.findRisks, h2, hmsg]
  · intro h1 h2
    have hmsg : (str "I could not find specific termination clauses in the document.").isEmpty = false := by decide
    simp [Chat.generateRuleBasedAnswer, h1, Chat.runHandler, Chat.findTermination, h2, hmsg]
  · intro h1 h2
    have hmsg : (str "I could not find specific obligations clearly stated in the document.").isEmpty = false := by decide
    simp [Chat.generateRuleBasedAnswer, h1, Chat.runHandler, Chat.findObligations, h2, hmsg]
  · intro h1 h2
    have hmsg : (str "I could not find specific warranty or guarantee clauses in the document.").isEmpty = false := by decide
    simp [Chat.generateRuleBasedAnswer, h1, Chat.runHandler, Chat.findWarranties, h2, hmsg]

/-- C5 (counterexample): the question matches the parties group first,
the parties handler finds zero qualifying sentences, yet the matcher
returns the topic-specific parties message, not the generic
keyword-overlap fallback. -/
theorem qa_topic_handler_no_fallback_cex :
    Chat.matchedTopic (toLowerStr (str "who are they")) = some Chat.Topic.parties ∧
      (Chat.contextSentences
          (str "The quick brown fox jumped over the lazy dog by the river")).filter
        Chat.partyPred = [] ∧
      Chat.generateRuleBasedAnswer (str "who are they")
          (str "The quick brown fox jumped over the lazy dog by the river") =
        Chat.partiesNoMatchMsg ∧
      Chat.generateRuleBasedAnswer (str "who are they")
          (str "The quick brown fox jumped over the lazy dog by the river") ≠
        Chat.extractRelevantSentences (str "who are they")
          (str "The quick brown fox jumped over the lazy dog by the river") := by
  refine ⟨by decide, by decide, by decide, by decide⟩

/-- Witness for C5 applying the definitions conjunct and the parties
conjunct at concrete inputs. -/
theorem qa_zero_match_behaviour_witness :
    Chat.generateRuleBasedAnswer (str "what is this about")
        (str "The quick brown fox jumped over the lazy dog by the river") =
      Chat.extractRelevantSentences (str "what is this about")
        (str "The quick brown fox jumped over the lazy dog by the river") ∧
    Chat.generateRuleBasedAnswer (str "who are they")
        (str "The quick brown fox jumped over the lazy dog by the river") =
      Chat.partiesNoMatchMsg :=
  ⟨(qa_zero_match_behaviour (str "what is this about")
      (str "The quick brown fox jumped over the lazy dog by the river")).1
      (by decide) (by decide),
   (qa_zero_match_behaviour (str "who are they")
      (str "The quick brown fox jumped over the lazy dog by the river")).2.1
      (by decide) (by decide)⟩
